import Mathlib

/-!
Shallow embedding of `src/ssh-deploy-release.js` (the deployment pipeline of
ssh-deploy-release).  Each pipeline task of the source class is translated to a
Lean function from the options (and an environment describing the behaviour of
the external collaborators: the remote session, the archiver, the user hooks)
to the list of observable events it emits, a completion flag (`ok = false`
means the task never invoked its `done` continuation: a thrown error, a fatal
log that terminates the process, or a stalled callback), and the options value
after the task ran (the source mutates `this.options` in one place).

`async.series` is embedded as `seriesRun`: it runs the tasks in order, starting
task n+1 only once task n has invoked `done`, and concatenates their event
traces.
-/

namespace SDR

/-- Observable events of one pipeline run: logger output, remote-session calls,
archiver invocations, local filesystem calls, and the invocation of the public
entry point's completion callback. -/
inductive Event
  | logSubhead (s : String)
  | logLog (s : String)
  | logOk (s : String)
  | logError (s : String)
  | logFatal (s : String)
  | spinnerStart (s : String)
  | spinnerStop
  | remoteConnect
  | remoteClose
  | remoteExec (cmd : String) (showLog : Bool)
  | remoteExecMultiple (cmds : List String)
  | remoteUpload (src target : String)
  | remoteSynchronize (localPath releasePath syncPath : String)
  | remoteCreateSymboliclink (target link : String)
  | remoteChmod (path mode : String)
  | remoteCreateFolder (path : String)
  | remoteRemoveOldFolders (folder : String) (keep : Int)
  | archiverCompress (archiveType archiveName localPath : String) (exclude : List String)
  | fsUnlink (path : String)
  | doneCalled (err : Option String)
  deriving DecidableEq, Repr

/-- Events a user hook can emit through the restricted context surface
(`this.context`): the logger plus the restricted remote subset
exec / execMultiple / upload / createSymboliclink / chmod / createFolder.
The context does not expose `removeOldFolders`, `connect`, or `close`. -/
inductive CtxEvent
  | log (s : String)
  | exec (cmd : String) (showLog : Bool)
  | execMultiple (cmds : List String)
  | upload (src target : String)
  | createSymboliclink (target link : String)
  | chmod (path mode : String)
  | createFolder (path : String)
  deriving DecidableEq, Repr

/-- Interpretation of a restricted context event as a pipeline event. -/
def CtxEvent.toEvent : CtxEvent → Event
  | .log s => .logLog s
  | .exec c b => .remoteExec c b
  | .execMultiple cs => .remoteExecMultiple cs
  | .upload s t => .remoteUpload s t
  | .createSymboliclink t l => .remoteCreateSymboliclink t l
  | .chmod p m => .remoteChmod p m
  | .createFolder p => .remoteCreateFolder p

/-- A user-supplied hook (`onBeforeDeploy`, `onBeforeLink`, `onAfterDeploy`):
modelled by the events it emits through the restricted context and whether it
ever signals completion (a hook that never calls `done` stalls the pipeline). -/
structure Hook where
  events : List CtxEvent
  completes : Bool
  deriving DecidableEq, Repr

/-- A command-list middleware value (`onBeforeDeployExecute`, …): `absent`
models a missing / falsy value (or a function resolving to a falsy value);
`cmds` models a static list or the list a function of the context resolved to
(resolution happens once per phase in `middlewareCallbackExecute`). -/
inductive MiddlewareSpec
  | absent
  | cmds (commands : List String)
  deriving DecidableEq, Repr

/-- One value of the `share` mapping: either a bare symlink-name string or a
descriptor object with optional `symlink` and `mode` properties. -/
inductive ShareConfigValue
  | str (s : String)
  | obj (symlink : Option String) (mode : Option String)
  deriving DecidableEq, Repr

/-- The options record built by the constructor (`new Options(options).get()`).
The `share` field is `none` when the option is null / undefined (falsy) and
`some` an association list (JS object in `Object.keys` insertion order)
otherwise; `create`, `makeWritable`, `makeExecutable` are arrays or absent. -/
structure Options where
  host : String
  deployPath : String
  releasesFolder : String
  sharedFolder : String
  currentReleaseLink : String
  synchronizedFolder : String
  mode : String
  archiveType : String
  archiveName : String
  localPath : String
  exclude : List String
  share : Option (List (String × ShareConfigValue))
  create : Option (List String)
  makeWritable : Option (List String)
  makeExecutable : Option (List String)
  releasesToKeep : Int
  deleteLocalArchiveAfterDeployment : Bool
  onBeforeDeploy : Hook
  onBeforeLink : Hook
  onAfterDeploy : Hook
  onBeforeDeployExecute : MiddlewareSpec
  onBeforeLinkExecute : MiddlewareSpec
  onAfterDeployExecute : MiddlewareSpec
  debug : Bool
  deriving DecidableEq, Repr

/-- The release value built by the constructor (src/Release.js): its generated
tag, name and remote path. -/
structure Release where
  tag : String
  name : String
  path : String
  deriving DecidableEq, Repr

/-- Behaviour of the external collaborators during one run: the release value,
and the outcomes delivered by the remote connection, the archiver, and the
upload.  `none` is success; `some err` delivers the (truthy unless empty)
error value to the corresponding callback. -/
structure Env where
  release : Release
  connectError : Option String
  compressError : Option String
  compressSize : String
  uploadError : Option String
  deriving DecidableEq, Repr

/-- Result of running one pipeline task: the events it emitted, whether it
invoked its `done` continuation (`ok = false`: thrown error, process-fatal
log, or a stalled callback — the series never advances), and the options value
afterwards. -/
structure StepOut where
  events : List Event
  ok : Bool
  opts : Options
  deriving DecidableEq, Repr

abbrev PipelineTask := Options → Env → StepOut

/-- Model of `path.posix.join` for the plain path segments this program joins
(no dot-segment normalisation is exercised by those call sites). -/
def posixJoin (a b : String) : String :=
  if a = "" then b else if b = "" then a else a ++ "/" ++ b

/-- Modelled from the spec: `utils.getReversePath` (src/utils.js is not among
the sources).  The spec fixes the composed shared-symlink target to contain
one `..` segment per path separator in the symlink name plus one, and the
composition site (line 372) appends one further `/../`, so `getReversePath`
contributes one `..` segment per `/` in its argument, joined by `/`.  This
reproduces the spec's nested example `app/logs ⇒ ../../shared/x` exactly. -/
def dotsPath : Nat → String
  | 0 => ""
  | 1 => ".."
  | n + 2 => dotsPath (n + 1) ++ "/.."

/-- Number of `/` separators in a path string. -/
def slashCount (s : String) : Nat := s.data.count '/'

/-- Modelled from the spec: see `dotsPath`. -/
def getReversePath (p : String) : String := dotsPath (slashCount p)

/-- The shared-symlink target computed at lines 370–372:
`upwardPath + '/../' + sharedFolder + '/' + folderKey`. -/
def sharedSymlinkTarget (sharedFolder symlinkName folderKey : String) : String :=
  getReversePath symlinkName ++ "/../" ++ sharedFolder ++ "/" ++ folderKey

/-- The symlink name of a share entry: the bare string, the descriptor's
`symlink` property, or — when a descriptor has no `symlink` property — the
object itself, which JS stringifies to `[object Object]` when concatenated. -/
def shareSymlinkName : ShareConfigValue → String
  | .str s => s
  | .obj (some s) _ => s
  | .obj none _ => "[object Object]"

/-- The `mode` of a share entry: `null` unless the descriptor has a `mode`
property. -/
def shareMode : ShareConfigValue → Option String
  | .str _ => none
  | .obj _ m => m

/-- `connectToRemoteTask` (lines 177–212): logs, starts the spinner, connects;
on success logs `Connected` and continues, on a connection error stops the
spinner, fatally logs a truthy error, and never invokes `done`. -/
def connectToRemoteTask (o : Options) (e : Env) : StepOut :=
  match e.connectError with
  | none =>
      ⟨[Event.logSubhead ("Connect to " ++ o.host), Event.spinnerStart "Connecting",
        Event.remoteConnect, Event.spinnerStop, Event.logOk "Connected"], true, o⟩
  | some err =>
      ⟨[Event.logSubhead ("Connect to " ++ o.host), Event.spinnerStart "Connecting",
        Event.remoteConnect, Event.spinnerStop]
       ++ (if err = "" then [] else [Event.logFatal err]), false, o⟩

/-- A hook task (`onBeforeDeployTask`, `onBeforeLinkTask`, `onAfterDeployTask`):
calls the user hook with the context and the stage's `done`. -/
def hookTask (h : Options → Hook) (o : Options) (_e : Env) : StepOut :=
  ⟨((h o).events).map CtxEvent.toEvent, (h o).completes, o⟩

/-- `middlewareCallbackExecute` (lines 589–616): falsy or empty command list is
a pure no-op; otherwise each command is echoed with a subhead and executed
sequentially, then `Done` is logged. -/
def middlewareCallbackExecute (mw : MiddlewareSpec) : List Event × Bool :=
  match mw with
  | .absent => ([], true)
  | .cmds commands =>
      if commands.isEmpty then ([], true)
      else (commands.flatMap
              (fun c => [Event.logSubhead ("Execute on remote : " ++ c), Event.remoteExec c true])
            ++ [Event.logOk "Done"], true)

/-- A middleware task (`onBeforeDeployExecuteTask`, …). -/
def middlewareTask (mw : Options → MiddlewareSpec) (o : Options) (_e : Env) : StepOut :=
  let r := middlewareCallbackExecute (mw o)
  ⟨r.1, r.2, o⟩

/-- `compressReleaseTask` (lines 142–171): skipped unless `mode = archive`;
otherwise compresses via the archiver; a compression error is rethrown, so the
task never invokes `done` on that path. -/
def compressReleaseTask (o : Options) (e : Env) : StepOut :=
  if o.mode = "archive" then
    match e.compressError with
    | none =>
        ⟨[Event.logSubhead "Compress release", Event.spinnerStart "Compressing",
          Event.archiverCompress o.archiveType o.archiveName o.localPath o.exclude,
          Event.spinnerStop, Event.logOk ("Archive created : " ++ e.compressSize)], true, o⟩
    | some _ =>
        ⟨[Event.logSubhead "Compress release", Event.spinnerStart "Compressing",
          Event.archiverCompress o.archiveType o.archiveName o.localPath o.exclude,
          Event.spinnerStop, Event.logError "Error while compressing"], false, o⟩
  else ⟨[], true, o⟩

/-- `createReleaseFolderOnRemoteTask` (lines 218–226). -/
def createReleaseFolderOnRemoteTask (o : Options) (e : Env) : StepOut :=
  ⟨[Event.logSubhead "Create release folder on remote", Event.logLog (" - " ++ e.release.path),
    Event.remoteCreateFolder e.release.path, Event.logOk "Done"], true, o⟩

/-- `uploadArchiveTask` (lines 232–256): skipped unless `mode = archive`; a
truthy upload error is logged and the task returns without invoking `done`. -/
def uploadArchiveTask (o : Options) (e : Env) : StepOut :=
  if o.mode = "archive" then
    match e.uploadError with
    | none =>
        ⟨[Event.logSubhead "Upload archive to remote", Event.spinnerStart "Uploading",
          Event.remoteUpload o.archiveName e.release.path, Event.spinnerStop,
          Event.logOk "Done"], true, o⟩
    | some err =>
        if err = "" then
          ⟨[Event.logSubhead "Upload archive to remote", Event.spinnerStart "Uploading",
            Event.remoteUpload o.archiveName e.release.path, Event.spinnerStop,
            Event.logOk "Done"], true, o⟩
        else
          ⟨[Event.logSubhead "Upload archive to remote", Event.spinnerStart "Uploading",
            Event.remoteUpload o.archiveName e.release.path, Event.spinnerStop,
            Event.logError err], false, o⟩
  else ⟨[], true, o⟩

/-- `uploadReleaseTask` (lines 262–282): the synchronize stage, skipped unless
`mode = synchronize`. -/
def uploadReleaseTask (o : Options) (e : Env) : StepOut :=
  if o.mode = "synchronize" then
    ⟨[Event.logSubhead "Synchronize remote server", Event.spinnerStart "Synchronizing",
      Event.remoteSynchronize o.localPath e.release.path
        (o.deployPath ++ "/" ++ o.synchronizedFolder),
      Event.spinnerStop, Event.logOk "Done"], true, o⟩
  else ⟨[], true, o⟩

/-- `decompressArchiveOnRemoteTask` (lines 288–318): skipped unless
`mode = archive`; builds the per-type unpack command followed by `rm` of the
archive, joined by a newline, as one remote exec.  An unsupported archive type
reaches `logger.fatal`, which — modelled from the spec (§7: fatal conditions
terminate the process after logging) — aborts before any remote command. -/
def decompressArchiveOnRemoteTask (o : Options) (e : Env) : StepOut :=
  if o.mode = "archive" then
    if o.archiveType = "zip" then
      ⟨[Event.logSubhead "Decompress archive on remote", Event.spinnerStart "Decompressing",
        Event.remoteExec
          ("unzip -q " ++ posixJoin e.release.path o.archiveName ++ " -d " ++
            e.release.path ++ "/" ++ "\n" ++
            ("rm " ++ posixJoin e.release.path o.archiveName)) false,
        Event.spinnerStop, Event.logOk "Done"], true, o⟩
    else if o.archiveType = "tar" then
      ⟨[Event.logSubhead "Decompress archive on remote", Event.spinnerStart "Decompressing",
        Event.remoteExec
          ("tar -xvf " ++ posixJoin e.release.path o.archiveName ++ " -C " ++
            e.release.path ++ "/" ++ "\n" ++
            ("rm " ++ posixJoin e.release.path o.archiveName)) false,
        Event.spinnerStop, Event.logOk "Done"], true, o⟩
    else
      ⟨[Event.logSubhead "Decompress archive on remote", Event.spinnerStart "Decompressing",
        Event.logFatal (o.archiveType ++ " not supported.")], false, o⟩
  else ⟨[], true, o⟩

/-- Events of one share entry (lines 351–385): compute the symlink name, the
link path and the relative target, create the symlink, and afterwards chmod
the link if and only if the entry's `mode` is truthy (`if (!mode)` skips both
a missing and an empty mode). -/
def shareEntryEvents (o : Options) (rel : Release) (key : String) (cfg : ShareConfigValue) :
    List Event :=
  let symlinkName := shareSymlinkName cfg
  let linkPath := rel.path ++ "/" ++ symlinkName
  let target := sharedSymlinkTarget o.sharedFolder symlinkName key
  [Event.logLog (" - " ++ symlinkName ++ " ==> " ++ key),
   Event.remoteCreateSymboliclink target linkPath]
  ++ (match shareMode cfg with
      | none => []
      | some m => if m = "" then [] else [Event.logLog ("   chmod " ++ m),
                                          Event.remoteChmod linkPath m])

/-- `updateSharedSymbolicLinkOnRemoteTask` (lines 340–392).  The guard is
`!this.options.share || this.options.share.length == 0`; a plain object has no
`length` property and `undefined == 0` is false, so only a falsy `share`
(modelled `none`) is skipped — an empty mapping still logs the subhead and
`Done` around an empty iteration. -/
def updateSharedSymbolicLinkOnRemoteTask (o : Options) (e : Env) : StepOut :=
  match o.share with
  | none => ⟨[], true, o⟩
  | some entries =>
      ⟨Event.logSubhead "Update shared symlink on remote" ::
        (entries.flatMap (fun kv => shareEntryEvents o e.release kv.1 kv.2)
         ++ [Event.logOk "Done"]), true, o⟩

/-- `createFolderTask` (lines 398–420): skipped when `create` is falsy or an
empty array. -/
def createFolderTask (o : Options) (e : Env) : StepOut :=
  match o.create with
  | none => ⟨[], true, o⟩
  | some folders =>
      if folders.isEmpty then ⟨[], true, o⟩
      else
        ⟨Event.logSubhead "Create folders on remote" ::
          (folders.flatMap
            (fun f => [Event.logLog (" - " ++ f),
                       Event.remoteCreateFolder (e.release.path ++ "/" ++ f)])
           ++ [Event.logOk "Done"]), true, o⟩

/-- `makeDirectoriesWritableTask` (lines 426–448). -/
def makeDirectoriesWritableTask (o : Options) (e : Env) : StepOut :=
  match o.makeWritable with
  | none => ⟨[], true, o⟩
  | some folders =>
      if folders.isEmpty then ⟨[], true, o⟩
      else
        ⟨Event.logSubhead "Make folders writable on remote" ::
          (folders.flatMap
            (fun f => [Event.logLog (" - " ++ f),
                       Event.remoteChmod (e.release.path ++ "/" ++ f) "ugo+w"])
           ++ [Event.logOk "Done"]), true, o⟩

/-- `makeFilesExecutableTask` (lines 454–474): uses a raw `chmod ugo+x` exec
rather than the chmod capability. -/
def makeFilesExecutableTask (o : Options) (e : Env) : StepOut :=
  match o.makeExecutable with
  | none => ⟨[], true, o⟩
  | some files =>
      if files.isEmpty then ⟨[], true, o⟩
      else
        ⟨Event.logSubhead "Make files executables on remote" ::
          (files.flatMap
            (fun f => [Event.logLog (" - " ++ f),
                       Event.remoteExec ("chmod ugo+x " ++ (e.release.path ++ "/" ++ f)) false])
           ++ [Event.logOk "Done"]), true, o⟩

/-- `updateCurrentSymbolicLinkOnRemoteTask` (lines 480–494): the unconditional
current-symlink swap. -/
def updateCurrentSymbolicLinkOnRemoteTask (o : Options) (e : Env) : StepOut :=
  ⟨[Event.logSubhead "Update current release symlink on remote",
    Event.remoteCreateSymboliclink (o.releasesFolder ++ "/" ++ e.release.tag)
      (posixJoin o.deployPath o.currentReleaseLink),
    Event.logOk "Done"], true, o⟩

/-- `remoteCleanupTask` (lines 516–539): clamps `this.options.releasesToKeep`
up to 1 by assignment (a mutation of the options), then prunes the releases
folder keeping that many. -/
def remoteCleanupTask (o : Options) (_e : Env) : StepOut :=
  let o2 := if o.releasesToKeep < 1 then { o with releasesToKeep := 1 } else o
  ⟨[Event.logSubhead "Remove old builds on remote", Event.spinnerStart "Removing",
    Event.remoteRemoveOldFolders (posixJoin o2.deployPath o2.releasesFolder) o2.releasesToKeep,
    Event.spinnerStop, Event.logOk "Done"], true, o2⟩

/-- `deleteLocalArchiveTask` (lines 545–555): skipped unless `mode = archive`
and the deletion flag is set. -/
def deleteLocalArchiveTask (o : Options) (_e : Env) : StepOut :=
  if o.mode = "archive" then
    if o.deleteLocalArchiveAfterDeployment then
      ⟨[Event.logSubhead "Delete local archive", Event.fsUnlink o.archiveName,
        Event.logOk "Done"], true, o⟩
    else ⟨[], true, o⟩
  else ⟨[], true, o⟩

/-- `closeConnectionTask` (lines 561–563) together with the close handler
registered at connect time, which logs `Closed from <host>`. -/
def closeConnectionTask (o : Options) (_e : Env) : StepOut :=
  ⟨[Event.remoteClose, Event.logSubhead ("Closed from " ++ o.host)], true, o⟩

/-- `removeReleaseTask` (lines 570–578): `rm -rf` of the whole deploy root. -/
def removeReleaseTask (o : Options) (_e : Env) : StepOut :=
  ⟨[Event.logSubhead "Remove releases on remote",
    Event.remoteExec ("rm -rf " ++ o.deployPath) false, Event.logOk "Done"], true, o⟩

/-- `async.series`: runs the tasks strictly in order; task n+1 starts only
after task n invoked `done`; a task that never completes freezes the series
with the events emitted so far. -/
def seriesRun : List PipelineTask → Options → Env → StepOut
  | [], o, _ => ⟨[], true, o⟩
  | t :: ts, o, e =>
      let s := t o e
      if s.ok then
        let r := seriesRun ts s.opts e
        ⟨s.events ++ r.events, r.ok, r.opts⟩
      else s

/-- A task that does nothing (used only as a `List.getD` default). -/
def idTask : PipelineTask := fun o _ => ⟨[], true, o⟩

/-- The ordered task list of `deployRelease` (lines 79–99). -/
def deployTasks : List PipelineTask :=
  [connectToRemoteTask,
   hookTask Options.onBeforeDeploy,
   middlewareTask Options.onBeforeDeployExecute,
   compressReleaseTask,
   createReleaseFolderOnRemoteTask,
   uploadArchiveTask,
   uploadReleaseTask,
   decompressArchiveOnRemoteTask,
   hookTask Options.onBeforeLink,
   middlewareTask Options.onBeforeLinkExecute,
   updateSharedSymbolicLinkOnRemoteTask,
   createFolderTask,
   makeDirectoriesWritableTask,
   makeFilesExecutableTask,
   updateCurrentSymbolicLinkOnRemoteTask,
   hookTask Options.onAfterDeploy,
   middlewareTask Options.onAfterDeployExecute,
   remoteCleanupTask,
   deleteLocalArchiveTask,
   closeConnectionTask]

/-- The ordered task list of `removeRelease` (lines 112–115). -/
def removeTasks : List PipelineTask :=
  [connectToRemoteTask, removeReleaseTask, closeConnectionTask]

/-- The pipeline body of `deployRelease`. -/
def deployRelease (o : Options) (e : Env) : StepOut := seriesRun deployTasks o e

/-- The pipeline body of `removeRelease`. -/
def removeRelease (o : Options) (e : Env) : StepOut := seriesRun removeTasks o e

/-- The first `n` stages of `deployRelease`. -/
def deployUpTo (o : Options) (e : Env) (n : Nat) : StepOut :=
  seriesRun (deployTasks.take n) o e

/-- A completion callback, modelled by the context events the user callback
emits when invoked; `noop` (line 68) emits nothing. -/
def noop : List CtxEvent := []

/-- `done = done || this.noop` (lines 77 and 110): an omitted callback is
replaced by the internal no-op handler. -/
def resolveDone (d : Option (List CtxEvent)) : List CtxEvent := d.getD noop

/-- The public entry point `deployRelease(done)` (lines 76–103): resolves the
callback, runs the series, and — only when the series reaches its final
callback — invokes `done` with no arguments. -/
def deployReleaseRun (d : Option (List CtxEvent)) (o : Options) (e : Env) :
    List Event × Bool :=
  let cb := resolveDone d
  let r := deployRelease o e
  if r.ok then (r.events ++ Event.doneCalled none :: cb.map CtxEvent.toEvent, true)
  else (r.events, false)

/-- The public entry point `removeRelease(done)` (lines 109–119). -/
def removeReleaseRun (d : Option (List CtxEvent)) (o : Options) (e : Env) :
    List Event × Bool :=
  let cb := resolveDone d
  let r := removeRelease o e
  if r.ok then (r.events ++ Event.doneCalled none :: cb.map CtxEvent.toEvent, true)
  else (r.events, false)

/-- Event classifiers. -/
def Event.isRemoveOldFolders : Event → Bool
  | .remoteRemoveOldFolders _ _ => true
  | _ => false

def Event.isDoneCalled : Event → Bool
  | .doneCalled _ => true
  | _ => false

def Event.isChmod : Event → Bool
  | .remoteChmod _ _ => true
  | _ => false

/-- True for every call that reaches the remote session. -/
def Event.isRemoteCall : Event → Bool
  | .remoteConnect => true
  | .remoteClose => true
  | .remoteExec _ _ => true
  | .remoteExecMultiple _ => true
  | .remoteUpload _ _ => true
  | .remoteSynchronize _ _ _ => true
  | .remoteCreateSymboliclink _ _ => true
  | .remoteChmod _ _ => true
  | .remoteCreateFolder _ => true
  | .remoteRemoveOldFolders _ _ => true
  | _ => false

/-- True for every line of log output. -/
def Event.isLogOutput : Event → Bool
  | .logSubhead _ => true
  | .logLog _ => true
  | .logOk _ => true
  | .logError _ => true
  | .logFatal _ => true
  | .spinnerStart _ => true
  | _ => false

/-! Concrete fixtures used by witnesses and counterexamples. -/

def sampleHook : Hook := ⟨[], true⟩

def sampleOptions : Options where
  host := "h"
  deployPath := "d"
  releasesFolder := "r"
  sharedFolder := "shared"
  currentReleaseLink := "c"
  synchronizedFolder := "y"
  mode := "synchronize"
  archiveType := "tar"
  archiveName := "a"
  localPath := "l"
  exclude := []
  share := none
  create := none
  makeWritable := none
  makeExecutable := none
  releasesToKeep := 3
  deleteLocalArchiveAfterDeployment := false
  onBeforeDeploy := sampleHook
  onBeforeLink := sampleHook
  onAfterDeploy := sampleHook
  onBeforeDeployExecute := .absent
  onBeforeLinkExecute := .absent
  onAfterDeployExecute := .absent
  debug := false

def sampleEnv : Env where
  release := ⟨"t", "n", "p"⟩
  connectError := none
  compressError := none
  compressSize := "1 MB"
  uploadError := none

def zipOptions : Options := { sampleOptions with mode := "archive", archiveType := "zip" }

def tarOptions : Options := { sampleOptions with mode := "archive", archiveType := "tar" }

def rarOptions : Options := { sampleOptions with mode := "archive", archiveType := "rar" }

def lowKeepOptions : Options := { sampleOptions with releasesToKeep := 0 }

def shareEmptyOptions : Options := { sampleOptions with share := some [] }

def emptyModeCfg : ShareConfigValue := ShareConfigValue.obj (some "cfg") (some "")

def uploadFailEnv : Env := { sampleEnv with uploadError := some "boom" }

def emptyListsOptions : Options :=
  { sampleOptions with create := some [], makeWritable := some [], makeExecutable := some [] }

def modeCfg : ShareConfigValue := ShareConfigValue.obj (some "cfg") (some "777")

/-- True unless the event is the invocation of a completion callback. -/
def noDoneEvent (ev : Event) : Bool := !ev.isDoneCalled

/-- True unless the event is a completion-callback invocation or the remote
prune call: every pipeline task except retention cleanup emits only such
events. -/
def eventSafe (ev : Event) : Bool := !ev.isDoneCalled && !ev.isRemoveOldFolders

/-- The stages of `deployRelease` up to and including the current-symlink
swap. -/
def deployTasksA : List PipelineTask :=
  [connectToRemoteTask,
   hookTask Options.onBeforeDeploy,
   middlewareTask Options.onBeforeDeployExecute,
   compressReleaseTask,
   createReleaseFolderOnRemoteTask,
   uploadArchiveTask,
   uploadReleaseTask,
   decompressArchiveOnRemoteTask,
   hookTask Options.onBeforeLink,
   middlewareTask Options.onBeforeLinkExecute,
   updateSharedSymbolicLinkOnRemoteTask,
   createFolderTask,
   makeDirectoriesWritableTask,
   makeFilesExecutableTask,
   updateCurrentSymbolicLinkOnRemoteTask]

/-- The stages of `deployRelease` after the current-symlink swap. -/
def deployTasksB : List PipelineTask :=
  [hookTask Options.onAfterDeploy,
   middlewareTask Options.onAfterDeployExecute,
   remoteCleanupTask,
   deleteLocalArchiveTask,
   closeConnectionTask]

end SDR

namespace SDR

/-- C3: for every run with mode = synchronize, the compress, upload-archive and
unpack stages emit no events at all — zero remote calls and the archiver is
never invoked — and for mode = archive the synchronize stage emits no
events. -/
theorem claim_C3_mode_gating (o : Options) (e : Env) :
    (o.mode = "synchronize" →
      compressReleaseTask o e = ⟨[], true, o⟩ ∧
      uploadArchiveTask o e = ⟨[], true, o⟩ ∧
      decompressArchiveOnRemoteTask o e = ⟨[], true, o⟩) ∧
    (o.mode = "archive" → uploadReleaseTask o e = ⟨[], true, o⟩) := by
  constructor
  · intro h
    refine ⟨?_, ?_, ?_⟩ <;>
      simp [compressReleaseTask, uploadArchiveTask, decompressArchiveOnRemoteTask, h]
  · intro h
    simp [uploadReleaseTask, h]

/-- C3 witness at concrete options. -/
theorem claim_C3_witness :
    sampleOptions.mode = "synchronize" ∧
    compressReleaseTask sampleOptions sampleEnv = ⟨[], true, sampleOptions⟩ ∧
    uploadArchiveTask sampleOptions sampleEnv = ⟨[], true, sampleOptions⟩ ∧
    decompressArchiveOnRemoteTask sampleOptions sampleEnv = ⟨[], true, sampleOptions⟩ ∧
    zipOptions.mode = "archive" ∧
    uploadReleaseTask zipOptions sampleEnv = ⟨[], true, zipOptions⟩ := by
  have h1 := claim_C3_mode_gating sampleOptions sampleEnv
  have h2 := claim_C3_mode_gating zipOptions sampleEnv
  exact ⟨rfl, (h1.1 rfl).1, (h1.1 rfl).2.1, (h1.1 rfl).2.2, rfl, h2.2 rfl⟩

/-- C4: in archive mode, archiveType zip issues one remote exec consisting of
an unzip of the uploaded archive into the release path followed (on the next
line of the same command) by `rm` of the archive file; tar likewise with a tar
extraction; any other archive type fails (the task never completes) with the
`not supported.` fatal log and issues no remote call at all. -/
theorem claim_C4_unpack_commands (o : Options) (e : Env) (harch : o.mode = "archive") :
    (o.archiveType = "zip" →
      decompressArchiveOnRemoteTask o e =
        ⟨[Event.logSubhead "Decompress archive on remote", Event.spinnerStart "Decompressing",
          Event.remoteExec
            ("unzip -q " ++ posixJoin e.release.path o.archiveName ++ " -d " ++
              e.release.path ++ "/" ++ "\n" ++
              ("rm " ++ posixJoin e.release.path o.archiveName)) false,
          Event.spinnerStop, Event.logOk "Done"], true, o⟩) ∧
    (o.archiveType = "tar" →
      decompressArchiveOnRemoteTask o e =
        ⟨[Event.logSubhead "Decompress archive on remote", Event.spinnerStart "Decompressing",
          Event.remoteExec
            ("tar -xvf " ++ posixJoin e.release.path o.archiveName ++ " -C " ++
              e.release.path ++ "/" ++ "\n" ++
              ("rm " ++ posixJoin e.release.path o.archiveName)) false,
          Event.spinnerStop, Event.logOk "Done"], true, o⟩) ∧
    (o.archiveType ≠ "zip" → o.archiveType ≠ "tar" →
      (decompressArchiveOnRemoteTask o e).ok = false ∧
      Event.logFatal (o.archiveType ++ " not supported.") ∈
        (decompressArchiveOnRemoteTask o e).events ∧
      (decompressArchiveOnRemoteTask o e).events.filter Event.isRemoteCall = []) := by
  refine ⟨?_, ?_, ?_⟩
  · intro hz
    simp [decompressArchiveOnRemoteTask, harch, hz]
  · intro ht
    by_cases hz : o.archiveType = "zip"
    · rw [hz] at ht; exact absurd ht (by decide)
    · simp [decompressArchiveOnRemoteTask, harch, hz, ht]
  · intro hz ht
    refine ⟨?_, ?_, ?_⟩ <;>
      simp [decompressArchiveOnRemoteTask, harch, hz, ht, Event.isRemoteCall,
        Event.isLogOutput, List.filter]

/-- C4 witness: concrete zip, tar and rar runs. -/
theorem claim_C4_witness :
    decompressArchiveOnRemoteTask zipOptions sampleEnv =
      ⟨[Event.logSubhead "Decompress archive on remote", Event.spinnerStart "Decompressing",
        Event.remoteExec ("unzip -q p/a -d p/" ++ "\n" ++ "rm p/a") false,
        Event.spinnerStop, Event.logOk "Done"], true, zipOptions⟩ ∧
    decompressArchiveOnRemoteTask tarOptions sampleEnv =
      ⟨[Event.logSubhead "Decompress archive on remote", Event.spinnerStart "Decompressing",
        Event.remoteExec ("tar -xvf p/a -C p/" ++ "\n" ++ "rm p/a") false,
        Event.spinnerStop, Event.logOk "Done"], true, tarOptions⟩ ∧
    (decompressArchiveOnRemoteTask rarOptions sampleEnv).ok = false ∧
    Event.logFatal "rar not supported." ∈ (decompressArchiveOnRemoteTask rarOptions sampleEnv).events ∧
    (decompressArchiveOnRemoteTask rarOptions sampleEnv).events.filter Event.isRemoteCall = [] := by
  have hz := (claim_C4_unpack_commands zipOptions sampleEnv rfl).1 rfl
  have ht := (claim_C4_unpack_commands tarOptions sampleEnv rfl).2.1 rfl
  have hr := (claim_C4_unpack_commands rarOptions sampleEnv rfl).2.2 (by decide) (by decide)
  refine ⟨?_, ?_, hr.1, ?_, hr.2.2⟩
  · rw [hz]; decide
  · rw [ht]; decide
  · have := hr.2.1; simpa using this

/-- C6: every run of the retention-cleanup stage invokes the remote prune
exactly once, with the join of deployPath and releasesFolder as root and with
releasesToKeep clamped to a minimum of 1 as keep count. -/
theorem claim_C6_retention_prune (o : Options) (e : Env) :
    (remoteCleanupTask o e).events.filter Event.isRemoveOldFolders =
      [Event.remoteRemoveOldFolders (posixJoin o.deployPath o.releasesFolder)
        (max o.releasesToKeep 1)] := by
  by_cases h : o.releasesToKeep < 1 <;>
    simp [remoteCleanupTask, h, Event.isRemoveOldFolders, List.filter] <;> omega

/-! Helper lemmas: options preservation of the individual tasks. -/

theorem connectToRemoteTask_opts (o : Options) (e : Env) : (connectToRemoteTask o e).opts = o := by
  unfold connectToRemoteTask; (repeat' split) <;> rfl

theorem hookTask_opts (h : Options → Hook) (o : Options) (e : Env) :
    (hookTask h o e).opts = o := rfl

theorem middlewareTask_opts (mw : Options → MiddlewareSpec) (o : Options) (e : Env) :
    (middlewareTask mw o e).opts = o := rfl

theorem compressReleaseTask_opts (o : Options) (e : Env) :
    (compressReleaseTask o e).opts = o := by
  unfold compressReleaseTask; cases e.compressError <;> (repeat' split) <;> rfl

theorem createReleaseFolderOnRemoteTask_opts (o : Options) (e : Env) :
    (createReleaseFolderOnRemoteTask o e).opts = o := rfl

theorem uploadArchiveTask_opts (o : Options) (e : Env) : (uploadArchiveTask o e).opts = o := by
  unfold uploadArchiveTask
  rcases e.uploadError with _ | err
  · split <;> rfl
  · by_cases he : err = "" <;> split <;> simp [he]

theorem uploadReleaseTask_opts (o : Options) (e : Env) : (uploadReleaseTask o e).opts = o := by
  unfold uploadReleaseTask; (repeat' split) <;> rfl

theorem decompressArchiveOnRemoteTask_opts (o : Options) (e : Env) :
    (decompressArchiveOnRemoteTask o e).opts = o := by
  unfold decompressArchiveOnRemoteTask; (repeat' split) <;> rfl

theorem updateSharedSymbolicLinkOnRemoteTask_opts (o : Options) (e : Env) :
    (updateSharedSymbolicLinkOnRemoteTask o e).opts = o := by
  unfold updateSharedSymbolicLinkOnRemoteTask; (repeat' split) <;> rfl

theorem createFolderTask_opts (o : Options) (e : Env) : (createFolderTask o e).opts = o := by
  unfold createFolderTask; (repeat' split) <;> rfl

theorem makeDirectoriesWritableTask_opts (o : Options) (e : Env) :
    (makeDirectoriesWritableTask o e).opts = o := by
  unfold makeDirectoriesWritableTask; (repeat' split) <;> rfl

theorem makeFilesExecutableTask_opts (o : Options) (e : Env) :
    (makeFilesExecutableTask o e).opts = o := by
  unfold makeFilesExecutableTask; (repeat' split) <;> rfl

theorem updateCurrentSymbolicLinkOnRemoteTask_opts (o : Options) (e : Env) :
    (updateCurrentSymbolicLinkOnRemoteTask o e).opts = o := rfl

theorem deleteLocalArchiveTask_opts (o : Options) (e : Env) :
    (deleteLocalArchiveTask o e).opts = o := by
  unfold deleteLocalArchiveTask; (repeat' split) <;> rfl

theorem closeConnectionTask_opts (o : Options) (e : Env) : (closeConnectionTask o e).opts = o :=
  rfl

theorem removeReleaseTask_opts (o : Options) (e : Env) : (removeReleaseTask o e).opts = o := rfl

theorem remoteCleanupTask_opts (o : Options) (e : Env) :
    (remoteCleanupTask o e).opts = { o with releasesToKeep := max o.releasesToKeep 1 } := by
  by_cases h : o.releasesToKeep < 1
  · have hm : max o.releasesToKeep 1 = 1 := by omega
    simp [remoteCleanupTask, h, hm]
  · have hm : max o.releasesToKeep 1 = o.releasesToKeep := by omega
    simp [remoteCleanupTask, h, hm]

/-- A series leaves the options unchanged when every task in it does. -/
theorem seriesRun_opts_fixed (e : Env) :
    ∀ (l : List PipelineTask) (o : Options), (∀ t ∈ l, (t o e).opts = o) →
      (seriesRun l o e).opts = o := by
  intro l
  induction l with
  | nil => intro o _; rfl
  | cons t ts ih =>
      intro o h
      have ht : (t o e).opts = o := h t (List.mem_cons_self _ _)
      simp only [seriesRun]
      by_cases hk : (t o e).ok
      · simp only [hk, if_true]
        rw [ht]
        exact ih o fun t' ht' => h t' (List.mem_cons_of_mem _ ht')
      · simp only [hk, if_false]
        exact ht

/-- C10: calling the public entry points with no completion callback
substitutes the internal no-op handler, so the run is identical to passing the
no-op explicitly and completes normally whenever the pipeline does. -/
theorem claim_C10_missing_callback (o : Options) (e : Env) :
    deployReleaseRun none o e = deployReleaseRun (some noop) o e ∧
    removeReleaseRun none o e = removeReleaseRun (some noop) o e ∧
    (deployReleaseRun none o e).2 = (deployRelease o e).ok ∧
    (removeReleaseRun none o e).2 = (removeRelease o e).ok := by
  refine ⟨rfl, rfl, ?_, ?_⟩
  · cases hr : (deployRelease o e).ok <;> simp [deployReleaseRun, hr]
  · cases hr : (removeRelease o e).ok <;> simp [removeReleaseRun, hr]

/-- C5 counterexample: the retention-cleanup stage mutates the options record —
with releasesToKeep = 0 the options value after the stage differs from the one
before the stage, refuting immutability. -/
theorem claim_C5_counterexample :
    lowKeepOptions.releasesToKeep = 0 ∧
    (remoteCleanupTask lowKeepOptions sampleEnv).opts ≠ lowKeepOptions ∧
    (remoteCleanupTask lowKeepOptions sampleEnv).opts.releasesToKeep = 1 := by
  refine ⟨rfl, ?_, ?_⟩ <;> decide

/-- C5 amended: every stage of deployRelease and removeRelease leaves the
options unchanged except retention cleanup, which sets releasesToKeep to
max(releasesToKeep, 1) and changes nothing else; in particular when
releasesToKeep ≥ 1 the full deploy and remove pipelines leave the options
unchanged. -/
theorem claim_C5_options_mutation (o : Options) (e : Env) :
    (1 ≤ o.releasesToKeep →
      (deployRelease o e).opts = o ∧ (removeRelease o e).opts = o) ∧
    (remoteCleanupTask o e).opts = { o with releasesToKeep := max o.releasesToKeep 1 } ∧
    (connectToRemoteTask o e).opts = o ∧
    (hookTask Options.onBeforeDeploy o e).opts = o ∧
    (middlewareTask Options.onBeforeDeployExecute o e).opts = o ∧
    (compressReleaseTask o e).opts = o ∧
    (createReleaseFolderOnRemoteTask o e).opts = o ∧
    (uploadArchiveTask o e).opts = o ∧
    (uploadReleaseTask o e).opts = o ∧
    (decompressArchiveOnRemoteTask o e).opts = o ∧
    (hookTask Options.onBeforeLink o e).opts = o ∧
    (middlewareTask Options.onBeforeLinkExecute o e).opts = o ∧
    (updateSharedSymbolicLinkOnRemoteTask o e).opts = o ∧
    (createFolderTask o e).opts = o ∧
    (makeDirectoriesWritableTask o e).opts = o ∧
    (makeFilesExecutableTask o e).opts = o ∧
    (updateCurrentSymbolicLinkOnRemoteTask o e).opts = o ∧
    (hookTask Options.onAfterDeploy o e).opts = o ∧
    (middlewareTask Options.onAfterDeployExecute o e).opts = o ∧
    (deleteLocalArchiveTask o e).opts = o ∧
    (closeConnectionTask o e).opts = o ∧
    (removeReleaseTask o e).opts = o := by
  have hclean : ∀ h1 : 1 ≤ o.releasesToKeep, (remoteCleanupTask o e).opts = o := by
    intro h1
    simp [remoteCleanupTask, show ¬(o.releasesToKeep < 1) by omega]
  refine ⟨?_, remoteCleanupTask_opts o e, connectToRemoteTask_opts o e, hookTask_opts _ o e,
    middlewareTask_opts _ o e, compressReleaseTask_opts o e,
    createReleaseFolderOnRemoteTask_opts o e, uploadArchiveTask_opts o e,
    uploadReleaseTask_opts o e, decompressArchiveOnRemoteTask_opts o e, hookTask_opts _ o e,
    middlewareTask_opts _ o e, updateSharedSymbolicLinkOnRemoteTask_opts o e,
    createFolderTask_opts o e, makeDirectoriesWritableTask_opts o e,
    makeFilesExecutableTask_opts o e, updateCurrentSymbolicLinkOnRemoteTask_opts o e,
    hookTask_opts _ o e, middlewareTask_opts _ o e, deleteLocalArchiveTask_opts o e,
    closeConnectionTask_opts o e, removeReleaseTask_opts o e⟩
  intro h1
  constructor
  · refine seriesRun_opts_fixed e deployTasks o ?_
    intro t ht
    simp only [deployTasks, List.mem_cons, List.not_mem_nil, or_false] at ht
    rcases ht with rfl|rfl|rfl|rfl|rfl|rfl|rfl|rfl|rfl|rfl|rfl|rfl|rfl|rfl|rfl|rfl|rfl|rfl|rfl|rfl <;>
      first
        | exact connectToRemoteTask_opts o e
        | exact hookTask_opts _ o e
        | exact middlewareTask_opts _ o e
        | exact compressReleaseTask_opts o e
        | exact createReleaseFolderOnRemoteTask_opts o e
        | exact uploadArchiveTask_opts o e
        | exact uploadReleaseTask_opts o e
        | exact decompressArchiveOnRemoteTask_opts o e
        | exact updateSharedSymbolicLinkOnRemoteTask_opts o e
        | exact createFolderTask_opts o e
        | exact makeDirectoriesWritableTask_opts o e
        | exact makeFilesExecutableTask_opts o e
        | exact updateCurrentSymbolicLinkOnRemoteTask_opts o e
        | exact hclean h1
        | exact deleteLocalArchiveTask_opts o e
        | exact closeConnectionTask_opts o e
  · refine seriesRun_opts_fixed e removeTasks o ?_
    intro t ht
    simp only [removeTasks, List.mem_cons, List.not_mem_nil, or_false] at ht
    rcases ht with rfl|rfl|rfl <;>
      first
        | exact connectToRemoteTask_opts o e
        | exact removeReleaseTask_opts o e
        | exact closeConnectionTask_opts o e

/-- C5 witness: with releasesToKeep = 3 both full pipelines leave the options
unchanged. -/
theorem claim_C5_witness :
    (1 : Int) ≤ sampleOptions.releasesToKeep ∧
    (deployRelease sampleOptions sampleEnv).opts = sampleOptions ∧
    (removeRelease sampleOptions sampleEnv).opts = sampleOptions :=
  ⟨by decide, ((claim_C5_options_mutation sampleOptions sampleEnv).1 (by decide)).1,
   ((claim_C5_options_mutation sampleOptions sampleEnv).1 (by decide)).2⟩

/-! Helper lemmas: which events the individual tasks can emit.  `eventSafe`
excludes both the completion-callback event and the remote prune event; every
task except retention cleanup emits only `eventSafe` events, and retention
cleanup emits no completion-callback event either. -/

theorem eventSafe_toEvent (c : CtxEvent) : eventSafe c.toEvent = true := by
  cases c <;> rfl

theorem all_eventSafe_map_toEvent (l : List CtxEvent) :
    (l.map CtxEvent.toEvent).all eventSafe = true := by
  induction l with
  | nil => rfl
  | cons c cs ih => simp [List.all_cons, eventSafe_toEvent c, ih]

theorem all_noDone_of_safe (l : List Event) (h : l.all eventSafe = true) :
    l.all noDoneEvent = true := by
  rw [List.all_eq_true] at h ⊢
  intro ev hev
  have h2 := h ev hev
  rw [eventSafe, Bool.and_eq_true] at h2
  exact h2.1

theorem shareEntryEvents_safe (o : Options) (rel : Release) (k : String)
    (cfg : ShareConfigValue) : (shareEntryEvents o rel k cfg).all eventSafe = true := by
  unfold shareEntryEvents; (repeat' split) <;> rfl

theorem connectToRemoteTask_safe (o : Options) (e : Env) :
    (connectToRemoteTask o e).events.all eventSafe = true := by
  unfold connectToRemoteTask; (repeat' split) <;> rfl

theorem hookTask_safe (h : Options → Hook) (o : Options) (e : Env) :
    (hookTask h o e).events.all eventSafe = true :=
  all_eventSafe_map_toEvent _

theorem middlewareCallbackExecute_safe (mw : MiddlewareSpec) :
    (middlewareCallbackExecute mw).1.all eventSafe = true := by
  unfold middlewareCallbackExecute
  rcases mw with _ | cmds
  · rfl
  · dsimp only
    split
    · rfl
    · rw [List.all_append, List.all_flatMap]
      exact (Bool.and_eq_true _ _).mpr ⟨List.all_eq_true.mpr fun c _ => rfl, rfl⟩

theorem middlewareTask_safe (mw : Options → MiddlewareSpec) (o : Options) (e : Env) :
    (middlewareTask mw o e).events.all eventSafe = true :=
  middlewareCallbackExecute_safe (mw o)

theorem compressReleaseTask_safe (o : Options) (e : Env) :
    (compressReleaseTask o e).events.all eventSafe = true := by
  unfold compressReleaseTask; (repeat' split) <;> rfl

theorem createReleaseFolderOnRemoteTask_safe (o : Options) (e : Env) :
    (createReleaseFolderOnRemoteTask o e).events.all eventSafe = true := rfl

theorem uploadArchiveTask_safe (o : Options) (e : Env) :
    (uploadArchiveTask o e).events.all eventSafe = true := by
  unfold uploadArchiveTask; (repeat' split) <;> rfl

theorem uploadReleaseTask_safe (o : Options) (e : Env) :
    (uploadReleaseTask o e).events.all eventSafe = true := by
  unfold uploadReleaseTask; (repeat' split) <;> rfl

theorem decompressArchiveOnRemoteTask_safe (o : Options) (e : Env) :
    (decompressArchiveOnRemoteTask o e).events.all eventSafe = true := by
  unfold decompressArchiveOnRemoteTask; (repeat' split) <;> rfl

theorem updateSharedSymbolicLinkOnRemoteTask_safe (o : Options) (e : Env) :
    (updateSharedSymbolicLinkOnRemoteTask o e).events.all eventSafe = true := by
  unfold updateSharedSymbolicLinkOnRemoteTask
  split
  · rfl
  · rw [List.all_cons, List.all_append, List.all_flatMap]
    refine (Bool.and_eq_true _ _).mpr ⟨rfl, (Bool.and_eq_true _ _).mpr ⟨?_, rfl⟩⟩
    exact List.all_eq_true.mpr fun kv _ => shareEntryEvents_safe o e.release kv.1 kv.2

theorem createFolderTask_safe (o : Options) (e : Env) :
    (createFolderTask o e).events.all eventSafe = true := by
  unfold createFolderTask
  split
  · rfl
  · split
    · rfl
    · rw [List.all_cons, List.all_append, List.all_flatMap]
      exact (Bool.and_eq_true _ _).mpr
        ⟨rfl, (Bool.and_eq_true _ _).mpr ⟨List.all_eq_true.mpr fun f _ => rfl, rfl⟩⟩

theorem makeDirectoriesWritableTask_safe (o : Options) (e : Env) :
    (makeDirectoriesWritableTask o e).events.all eventSafe = true := by
  unfold makeDirectoriesWritableTask
  split
  · rfl
  · split
    · rfl
    · rw [List.all_cons, List.all_append, List.all_flatMap]
      exact (Bool.and_eq_true _ _).mpr
        ⟨rfl, (Bool.and_eq_true _ _).mpr ⟨List.all_eq_true.mpr fun f _ => rfl, rfl⟩⟩

theorem makeFilesExecutableTask_safe (o : Options) (e : Env) :
    (makeFilesExecutableTask o e).events.all eventSafe = true := by
  unfold makeFilesExecutableTask
  split
  · rfl
  · split
    · rfl
    · rw [List.all_cons, List.all_append, List.all_flatMap]
      exact (Bool.and_eq_true _ _).mpr
        ⟨rfl, (Bool.and_eq_true _ _).mpr ⟨List.all_eq_true.mpr fun f _ => rfl, rfl⟩⟩

theorem updateCurrentSymbolicLinkOnRemoteTask_safe (o : Options) (e : Env) :
    (updateCurrentSymbolicLinkOnRemoteTask o e).events.all eventSafe = true := rfl

theorem deleteLocalArchiveTask_safe (o : Options) (e : Env) :
    (deleteLocalArchiveTask o e).events.all eventSafe = true := by
  unfold deleteLocalArchiveTask; (repeat' split) <;> rfl

theorem closeConnectionTask_safe (o : Options) (e : Env) :
    (closeConnectionTask o e).events.all eventSafe = true := rfl

theorem removeReleaseTask_safe (o : Options) (e : Env) :
    (removeReleaseTask o e).events.all eventSafe = true := rfl

theorem remoteCleanupTask_noDone (o : Options) (e : Env) :
    (remoteCleanupTask o e).events.all noDoneEvent = true := by
  unfold remoteCleanupTask; (repeat' split) <;> rfl

/-- Event predicates lift from the tasks of a series to its whole trace. -/
theorem seriesRun_all (p : Event → Bool) (e : Env) :
    ∀ l : List PipelineTask, (∀ t ∈ l, ∀ o, ((t o e).events).all p = true) →
      ∀ o, ((seriesRun l o e).events).all p = true := by
  intro l
  induction l with
  | nil => intro _ o; rfl
  | cons t ts ih =>
      intro h o
      have ht := h t (List.mem_cons_self _ _) o
      simp only [seriesRun]
      cases hk : (t o e).ok
      · simp only [hk, Bool.false_eq_true, if_false]
        exact ht
      · simp only [hk, if_true]
        rw [List.all_append]
        exact (Bool.and_eq_true _ _).mpr
          ⟨ht, ih (fun t' ht' o' => h t' (List.mem_cons_of_mem _ ht') o') _⟩

theorem deployTasks_noDone :
    ∀ t ∈ deployTasks, ∀ (o : Options) (e : Env), ((t o e).events).all noDoneEvent = true := by
  intro t ht o e
  simp only [deployTasks, List.mem_cons, List.not_mem_nil, or_false] at ht
  rcases ht with rfl|rfl|rfl|rfl|rfl|rfl|rfl|rfl|rfl|rfl|rfl|rfl|rfl|rfl|rfl|rfl|rfl|rfl|rfl|rfl <;>
    first
      | exact remoteCleanupTask_noDone o e
      | exact all_noDone_of_safe _ (connectToRemoteTask_safe o e)
      | exact all_noDone_of_safe _ (hookTask_safe _ o e)
      | exact all_noDone_of_safe _ (middlewareTask_safe _ o e)
      | exact all_noDone_of_safe _ (compressReleaseTask_safe o e)
      | exact all_noDone_of_safe _ (createReleaseFolderOnRemoteTask_safe o e)
      | exact all_noDone_of_safe _ (uploadArchiveTask_safe o e)
      | exact all_noDone_of_safe _ (uploadReleaseTask_safe o e)
      | exact all_noDone_of_safe _ (decompressArchiveOnRemoteTask_safe o e)
      | exact all_noDone_of_safe _ (updateSharedSymbolicLinkOnRemoteTask_safe o e)
      | exact all_noDone_of_safe _ (createFolderTask_safe o e)
      | exact all_noDone_of_safe _ (makeDirectoriesWritableTask_safe o e)
      | exact all_noDone_of_safe _ (makeFilesExecutableTask_safe o e)
      | exact all_noDone_of_safe _ (updateCurrentSymbolicLinkOnRemoteTask_safe o e)
      | exact all_noDone_of_safe _ (deleteLocalArchiveTask_safe o e)
      | exact all_noDone_of_safe _ (closeConnectionTask_safe o e)

theorem removeTasks_noDone :
    ∀ t ∈ removeTasks, ∀ (o : Options) (e : Env), ((t o e).events).all noDoneEvent = true := by
  intro t ht o e
  simp only [removeTasks, List.mem_cons, List.not_mem_nil, or_false] at ht
  rcases ht with rfl|rfl|rfl <;>
    first
      | exact all_noDone_of_safe _ (connectToRemoteTask_safe o e)
      | exact all_noDone_of_safe _ (removeReleaseTask_safe o e)
      | exact all_noDone_of_safe _ (closeConnectionTask_safe o e)

theorem not_doneCalled_mem (l : List Event) (h : l.all noDoneEvent = true)
    (err : Option String) : Event.doneCalled err ∉ l := by
  intro hm
  exact Bool.false_ne_true (List.all_eq_true.mp h _ hm)

/-- The completion event appears in an entry point's trace exactly when the
pipeline completed, and then only with no error argument. -/
theorem entry_done_mem (r : StepOut) (cb : List Event)
    (hr : r.events.all noDoneEvent = true) (hcb : cb.all noDoneEvent = true)
    (err : Option String) :
    Event.doneCalled err ∈
        ((if r.ok then (r.events ++ Event.doneCalled none :: cb, true)
          else (r.events, false) : List Event × Bool)).1 ↔
      r.ok = true ∧ err = none := by
  cases hk : r.ok
  · constructor
    · intro hm
      rw [if_neg (by simp)] at hm
      exact absurd hm (not_doneCalled_mem _ hr err)
    · rintro ⟨h, -⟩
      exact absurd h (by simp)
  · constructor
    · intro hm
      rw [if_pos rfl] at hm
      rcases List.mem_append.mp hm with h | h
      · exact absurd h (not_doneCalled_mem _ hr err)
      · rcases List.mem_cons.mp h with h | h
        · injection h with h1; exact ⟨rfl, h1⟩
        · exact absurd h (not_doneCalled_mem _ hcb err)
    · rintro ⟨-, rfl⟩
      rw [if_pos rfl]
      exact List.mem_append.mpr (Or.inr (List.mem_cons_self _ _))

/-- C7 counterexample: with a failing upload in archive mode, a stage fails,
the pipeline never completes, and the completion callback is never invoked —
refuting "invoked unconditionally, including when a stage failed". -/
theorem claim_C7_counterexample :
    (deployRelease zipOptions uploadFailEnv).ok = false ∧
    (deployReleaseRun none zipOptions uploadFailEnv).1.filter Event.isDoneCalled = [] := by
  constructor <;> decide

/-- C7 amended: the completion callback of each public entry point is invoked
exactly when every stage of its pipeline completes, and an invocation always
carries no error argument — so no error information ever reaches the caller;
a stage failure leaves the callback uninvoked instead. -/
theorem claim_C7_done_signal (o : Options) (e : Env) (d : Option (List CtxEvent)) :
    (∀ err, Event.doneCalled err ∈ (deployReleaseRun d o e).1 → err = none) ∧
    (Event.doneCalled none ∈ (deployReleaseRun d o e).1 ↔ (deployRelease o e).ok = true) ∧
    (∀ err, Event.doneCalled err ∈ (removeReleaseRun d o e).1 → err = none) ∧
    (Event.doneCalled none ∈ (removeReleaseRun d o e).1 ↔ (removeRelease o e).ok = true) := by
  have hdep : (deployRelease o e).events.all noDoneEvent = true :=
    seriesRun_all noDoneEvent e deployTasks (fun t ht o' => deployTasks_noDone t ht o' e) o
  have hrem : (removeRelease o e).events.all noDoneEvent = true :=
    seriesRun_all noDoneEvent e removeTasks (fun t ht o' => removeTasks_noDone t ht o' e) o
  have hcb : ((resolveDone d).map CtxEvent.toEvent).all noDoneEvent = true :=
    all_noDone_of_safe _ (all_eventSafe_map_toEvent _)
  have hDep := fun err => entry_done_mem (deployRelease o e) _ hdep hcb err
  have hRem := fun err => entry_done_mem (removeRelease o e) _ hrem hcb err
  exact ⟨fun err hm => ((hDep err).mp hm).2,
    ⟨fun hm => ((hDep none).mp hm).1, fun hk => (hDep none).mpr ⟨hk, rfl⟩⟩,
    fun err hm => ((hRem err).mp hm).2,
    ⟨fun hm => ((hRem none).mp hm).1, fun hk => (hRem none).mpr ⟨hk, rfl⟩⟩⟩

/-- C7 witness: a completed concrete run, where the callback is invoked and
its argument is the no-error value. -/
theorem claim_C7_witness :
    Event.doneCalled none ∈ (deployReleaseRun none sampleOptions sampleEnv).1 ∧
    (none : Option String) = none := by
  have h := claim_C7_done_signal sampleOptions sampleEnv none
  exact ⟨h.2.1.mpr (by decide), h.1 none (h.2.1.mpr (by decide))⟩

/-- In a list of the shape `P ++ Q`, anything of `P` sits strictly before the
first position at which an element not occurring in `P` can be split off. -/
theorem mem_left_of_eq_append_cons {α : Type} (x y : α) :
    ∀ (P : List α) (l₁ : List α) (Q l₂ : List α), P ++ Q = l₁ ++ x :: l₂ → x ∉ P → y ∈ P →
      y ∈ l₁ := by
  intro P
  induction P with
  | nil => intro l₁ Q l₂ _ _ hy; cases hy
  | cons a P ih =>
      intro l₁ Q l₂ heq hx hy
      cases l₁ with
      | nil =>
          rw [List.nil_append] at heq
          rw [List.cons_append] at heq
          injection heq with h1 _
          exact absurd (h1 ▸ List.mem_cons_self a P) hx
      | cons b l₁ =>
          rw [List.cons_append, List.cons_append] at heq
          injection heq with h1 h2
          rcases List.mem_cons.mp hy with rfl | hy
          · exact h1 ▸ List.mem_cons_self b l₁
          · exact List.mem_cons_of_mem b
              (ih l₁ Q l₂ h2 (fun h => hx (List.mem_cons_of_mem a h)) hy)

/-- C8 counterexample: a descriptor with an explicitly given but empty mode
issues no chmod call at all, refuting "chmod if and only if a mode was
explicitly given". -/
theorem claim_C8_counterexample :
    shareMode emptyModeCfg = some "" ∧
    (shareEntryEvents sampleOptions (Release.mk "t" "n" "p") "k" emptyModeCfg).filter
      Event.isChmod = [] := by
  constructor <;> decide

/-- C8 amended: for each entry of the share mapping, processed in iteration
order, a chmod of the created link is issued if and only if the entry gives a
truthy (non-empty) mode — an absent or empty mode makes no chmod call at all,
never a default-mode call — and any chmod comes strictly after the symlink
creation of that entry. -/
theorem claim_C8_share_chmod (o : Options) (rel : Release) (k : String)
    (cfg : ShareConfigValue) :
    (∀ p m, Event.remoteChmod p m ∈ shareEntryEvents o rel k cfg ↔
        (shareMode cfg = some m ∧ m ≠ "" ∧ p = rel.path ++ "/" ++ shareSymlinkName cfg)) ∧
    (∀ l₁ l₂ p m, shareEntryEvents o rel k cfg = l₁ ++ Event.remoteChmod p m :: l₂ →
        Event.remoteCreateSymboliclink
          (sharedSymlinkTarget o.sharedFolder (shareSymlinkName cfg) k)
          (rel.path ++ "/" ++ shareSymlinkName cfg) ∈ l₁) := by
  rcases hmode : shareMode cfg with _ | m0
  · constructor
    · intro p m
      constructor
      · intro hm
        unfold shareEntryEvents at hm
        rw [hmode] at hm
        simp at hm
      · rintro ⟨h, -⟩
        exact Option.noConfusion h
    · intro l₁ l₂ p m heq
      unfold shareEntryEvents at heq
      rw [hmode] at heq
      have hmem : Event.remoteChmod p m ∈ l₁ ++ Event.remoteChmod p m :: l₂ := by simp
      rw [← heq] at hmem
      simp at hmem
  · by_cases hm0 : m0 = ""
    · subst hm0
      constructor
      · intro p m
        constructor
        · intro hm
          unfold shareEntryEvents at hm
          rw [hmode] at hm
          simp at hm
        · rintro ⟨h, hne, -⟩
          injection h with h
          exact absurd h.symm hne
      · intro l₁ l₂ p m heq
        unfold shareEntryEvents at heq
        rw [hmode] at heq
        have hmem : Event.remoteChmod p m ∈ l₁ ++ Event.remoteChmod p m :: l₂ := by simp
        rw [← heq] at hmem
        simp at hmem
    · constructor
      · intro p m
        constructor
        · intro hm
          unfold shareEntryEvents at hm
          rw [hmode] at hm
          simp [hm0] at hm
          rcases hm with ⟨rfl, rfl⟩
          exact ⟨rfl, hm0, rfl⟩
        · rintro ⟨h, -, rfl⟩
          injection h with h
          subst h
          unfold shareEntryEvents
          rw [hmode]
          simp [hm0]
      · intro l₁ l₂ p m heq
        unfold shareEntryEvents at heq
        rw [hmode] at heq
        dsimp only at heq
        rw [if_neg hm0] at heq
        refine mem_left_of_eq_append_cons (Event.remoteChmod p m)
          (Event.remoteCreateSymboliclink
            (sharedSymlinkTarget o.sharedFolder (shareSymlinkName cfg) k)
            (rel.path ++ "/" ++ shareSymlinkName cfg))
          [Event.logLog (" - " ++ shareSymlinkName cfg ++ " ==> " ++ k),
           Event.remoteCreateSymboliclink
             (sharedSymlinkTarget o.sharedFolder (shareSymlinkName cfg) k)
             (rel.path ++ "/" ++ shareSymlinkName cfg),
           Event.logLog ("   chmod " ++ m0)]
          l₁ [Event.remoteChmod (rel.path ++ "/" ++ shareSymlinkName cfg) m0] l₂ ?_ (by simp)
          (by simp)
        simpa using heq

/-- C8 witness: for a concrete descriptor with mode 777 the chmod splits off
only after the symlink creation. -/
theorem claim_C8_witness :
    Event.remoteCreateSymboliclink "/../shared/k" "p/cfg" ∈
      [Event.logLog " - cfg ==> k",
       Event.remoteCreateSymboliclink "/../shared/k" "p/cfg",
       Event.logLog "   chmod 777"] := by
  have h := (claim_C8_share_chmod sampleOptions (Release.mk "t" "n" "p") "k" modeCfg).2
    [Event.logLog " - cfg ==> k",
     Event.remoteCreateSymboliclink "/../shared/k" "p/cfg",
     Event.logLog "   chmod 777"] [] "p/cfg" "777" (by decide)
  exact h

/-- C2: the emptiness guard of the shared-symlink stage can never fire for an
empty share object (a plain JS object has no length property), so that stage
still logs a subhead and Done — refuting the claimed pure no-op — although it
makes zero remote calls; an absent share and empty or absent create,
makeWritable and makeExecutable lists and middleware phases are exact
no-ops. -/
theorem claim_C2_empty_stage_noop :
    (updateSharedSymbolicLinkOnRemoteTask shareEmptyOptions sampleEnv).events =
      [Event.logSubhead "Update shared symlink on remote", Event.logOk "Done"] ∧
    (updateSharedSymbolicLinkOnRemoteTask shareEmptyOptions sampleEnv).events.filter
      Event.isRemoteCall = [] ∧
    (updateSharedSymbolicLinkOnRemoteTask shareEmptyOptions sampleEnv).events.filter
      Event.isLogOutput ≠ [] ∧
    (updateSharedSymbolicLinkOnRemoteTask sampleOptions sampleEnv).events = [] ∧
    createFolderTask emptyListsOptions sampleEnv = ⟨[], true, emptyListsOptions⟩ ∧
    createFolderTask sampleOptions sampleEnv = ⟨[], true, sampleOptions⟩ ∧
    makeDirectoriesWritableTask emptyListsOptions sampleEnv = ⟨[], true, emptyListsOptions⟩ ∧
    makeDirectoriesWritableTask sampleOptions sampleEnv = ⟨[], true, sampleOptions⟩ ∧
    makeFilesExecutableTask emptyListsOptions sampleEnv = ⟨[], true, emptyListsOptions⟩ ∧
    makeFilesExecutableTask sampleOptions sampleEnv = ⟨[], true, sampleOptions⟩ ∧
    middlewareCallbackExecute MiddlewareSpec.absent = ([], true) ∧
    middlewareCallbackExecute (MiddlewareSpec.cmds []) = ([], true) := by
  refine ⟨?_, ?_, ?_, ?_, ?_, ?_, ?_, ?_, ?_, ?_, ?_, ?_⟩ <;> decide

/-- C9 counterexample: the target composed at line 372 for the separator-free
name `logs` is `/../shared/x`, not the claimed literal `../shared/x` (no
return value of the upward-path helper can produce the latter through
`upwardPath + '/../' + sharedFolder + '/' + folderKey`). -/
theorem claim_C9_counterexample :
    sharedSymlinkTarget "shared" "logs" "x" ≠ "../shared/x" ∧
    sharedSymlinkTarget "shared" "logs" "x" = "/../shared/x" := by
  constructor <;> decide

/-- C9 amended: the shared-symlink target contains one `..` segment per path
separator in the symlink name plus one, followed by the shared folder and the
key: a name with separators yields exactly the `..` run (`app/logs` gives
`../../shared/x`), while a separator-free name yields the run behind a
degenerate leading slash (`logs` gives `/../shared/x`, not the spec's literal
`../shared/x`). -/
theorem claim_C9_shared_link_target (sh name key : String) :
    (slashCount name = 0 →
      sharedSymlinkTarget sh name key = "/../" ++ sh ++ "/" ++ key) ∧
    (∀ c, slashCount name = c + 1 →
      sharedSymlinkTarget sh name key = dotsPath (c + 2) ++ "/" ++ sh ++ "/" ++ key) ∧
    sharedSymlinkTarget "shared" "logs" "x" = "/../shared/x" ∧
    sharedSymlinkTarget "shared" "app/logs" "x" = "../../shared/x" := by
  refine ⟨?_, ?_, by decide, by decide⟩
  · intro h0
    unfold sharedSymlinkTarget getReversePath
    rw [h0]
    rfl
  · intro c hc
    have hrev : getReversePath name = dotsPath (c + 1) := by
      unfold getReversePath; rw [hc]
    have hd : dotsPath (c + 2) ++ "/" = dotsPath (c + 1) ++ "/../" := by
      show dotsPath (c + 1) ++ "/.." ++ "/" = dotsPath (c + 1) ++ "/../"
      rw [String.append_assoc]
      rfl
    unfold sharedSymlinkTarget
    rw [hrev, hd]

/-! Helper lemmas: sequential structure of `seriesRun`. -/

theorem seriesRun_cons_ok (t : PipelineTask) (ts : List PipelineTask) (o : Options) (e : Env)
    (h : (t o e).ok = true) :
    seriesRun (t :: ts) o e =
      ⟨(t o e).events ++ (seriesRun ts (t o e).opts e).events,
       (seriesRun ts (t o e).opts e).ok, (seriesRun ts (t o e).opts e).opts⟩ := by
  simp only [seriesRun]
  rw [if_pos h]

theorem seriesRun_cons_halt (t : PipelineTask) (ts : List PipelineTask) (o : Options) (e : Env)
    (h : (t o e).ok = false) :
    seriesRun (t :: ts) o e = t o e := by
  simp only [seriesRun]
  rw [if_neg (by simp [h])]

theorem seriesRun_single_events (t : PipelineTask) (o : Options) (e : Env) :
    (seriesRun [t] o e).events = (t o e).events := by
  cases hs : (t o e).ok
  · rw [seriesRun_cons_halt t [] o e hs]
  · rw [seriesRun_cons_ok t [] o e hs]
    simp [seriesRun]

theorem seriesRun_append (e : Env) :
    ∀ (A B : List PipelineTask) (o : Options),
      seriesRun (A ++ B) o e =
        (if (seriesRun A o e).ok then
          ⟨(seriesRun A o e).events ++ (seriesRun B (seriesRun A o e).opts e).events,
           (seriesRun B (seriesRun A o e).opts e).ok,
           (seriesRun B (seriesRun A o e).opts e).opts⟩
         else seriesRun A o e) := by
  intro A
  induction A with
  | nil => intro B o; simp [seriesRun]
  | cons t A ih =>
      intro B o
      rw [List.cons_append]
      cases hs : (t o e).ok
      · rw [seriesRun_cons_halt t (A ++ B) o e hs, seriesRun_cons_halt t A o e hs,
          if_neg (by simp [hs])]
      · rw [seriesRun_cons_ok t (A ++ B) o e hs, seriesRun_cons_ok t A o e hs,
          ih B (t o e).opts]
        cases hA : (seriesRun A (t o e).opts e).ok
        · simp [hA]
        · simp [hA, List.append_assoc]

theorem not_rof_mem (l : List Event) (h : l.all eventSafe = true) (f : String) (k : Int) :
    Event.remoteRemoveOldFolders f k ∉ l := by
  intro hm
  have h2 := List.all_eq_true.mp h _ hm
  rw [eventSafe, Bool.and_eq_true] at h2
  exact Bool.false_ne_true h2.2

theorem deployTasksA_safe :
    ∀ t ∈ deployTasksA, ∀ (o : Options) (e : Env), ((t o e).events).all eventSafe = true := by
  intro t ht o e
  simp only [deployTasksA, List.mem_cons, List.not_mem_nil, or_false] at ht
  rcases ht with rfl|rfl|rfl|rfl|rfl|rfl|rfl|rfl|rfl|rfl|rfl|rfl|rfl|rfl|rfl <;>
    first
      | exact connectToRemoteTask_safe o e
      | exact hookTask_safe _ o e
      | exact middlewareTask_safe _ o e
      | exact compressReleaseTask_safe o e
      | exact createReleaseFolderOnRemoteTask_safe o e
      | exact uploadArchiveTask_safe o e
      | exact uploadReleaseTask_safe o e
      | exact decompressArchiveOnRemoteTask_safe o e
      | exact updateSharedSymbolicLinkOnRemoteTask_safe o e
      | exact createFolderTask_safe o e
      | exact makeDirectoriesWritableTask_safe o e
      | exact makeFilesExecutableTask_safe o e
      | exact updateCurrentSymbolicLinkOnRemoteTask_safe o e

theorem deployTasksA_opts (o : Options) (e : Env) :
    ∀ t ∈ deployTasksA, (t o e).opts = o := by
  intro t ht
  simp only [deployTasksA, List.mem_cons, List.not_mem_nil, or_false] at ht
  rcases ht with rfl|rfl|rfl|rfl|rfl|rfl|rfl|rfl|rfl|rfl|rfl|rfl|rfl|rfl|rfl <;>
    first
      | exact connectToRemoteTask_opts o e
      | exact hookTask_opts _ o e
      | exact middlewareTask_opts _ o e
      | exact compressReleaseTask_opts o e
      | exact createReleaseFolderOnRemoteTask_opts o e
      | exact uploadArchiveTask_opts o e
      | exact uploadReleaseTask_opts o e
      | exact decompressArchiveOnRemoteTask_opts o e
      | exact updateSharedSymbolicLinkOnRemoteTask_opts o e
      | exact createFolderTask_opts o e
      | exact makeDirectoriesWritableTask_opts o e
      | exact makeFilesExecutableTask_opts o e
      | exact updateCurrentSymbolicLinkOnRemoteTask_opts o e

/-- In a completed series whose tasks all preserve the options, every event of
every task appears in the series trace. -/
theorem seriesRun_task_events_mem (e : Env) :
    ∀ (l : List PipelineTask) (o : Options), (∀ t ∈ l, (t o e).opts = o) →
      (seriesRun l o e).ok = true →
      ∀ t ∈ l, ∀ ev ∈ (t o e).events, ev ∈ (seriesRun l o e).events := by
  intro l
  induction l with
  | nil => intro o _ _ t ht; cases ht
  | cons t0 ts ih =>
      intro o hpres hok t ht ev hev
      cases hs : (t0 o e).ok
      · rw [seriesRun_cons_halt t0 ts o e hs] at hok
        rw [hs] at hok
        cases hok
      · rw [seriesRun_cons_ok t0 ts o e hs] at hok ⊢
        rcases List.mem_cons.mp ht with rfl | ht
        · exact List.mem_append.mpr (Or.inl hev)
        · refine List.mem_append.mpr (Or.inr ?_)
          rw [hpres t0 (List.mem_cons_self _ _)] at hok ⊢
          exact ih o (fun t' ht' => hpres t' (List.mem_cons_of_mem _ ht')) hok t ht ev hev

/-- When the first fifteen stages of deployRelease complete, the
current-symlink swap event is in their trace. -/
theorem seriesRunA_swap_mem (o : Options) (e : Env)
    (h : (seriesRun deployTasksA o e).ok = true) :
    Event.remoteCreateSymboliclink (o.releasesFolder ++ "/" ++ e.release.tag)
      (posixJoin o.deployPath o.currentReleaseLink) ∈ (seriesRun deployTasksA o e).events := by
  refine seriesRun_task_events_mem e deployTasksA o (deployTasksA_opts o e) h
    updateCurrentSymbolicLinkOnRemoteTask (by simp [deployTasksA]) _ ?_
  simp [updateCurrentSymbolicLinkOnRemoteTask]

/-- C1: deployRelease runs its twenty stages strictly sequentially in the
fixed source order of `deployTasks`: the trace of the first n+1 stages is the
trace of the first n stages followed by the events of stage n+1, and stage
n+1 runs only when the first n stages all signalled completion (a halted
series is frozen); consequently every remote prune event of the retention
cleanup occurs strictly after the current-symlink swap event. -/
theorem claim_C1_stage_order (o : Options) (e : Env) :
    (∀ n : Nat,
      ((deployUpTo o e n).ok = true →
        (deployUpTo o e (n + 1)).events =
          (deployUpTo o e n).events ++
            ((deployTasks.getD n idTask) (deployUpTo o e n).opts e).events) ∧
      ((deployUpTo o e n).ok = false → deployUpTo o e (n + 1) = deployUpTo o e n)) ∧
    (∀ (l₁ l₂ : List Event) (f : String) (k : Int),
      (deployRelease o e).events = l₁ ++ Event.remoteRemoveOldFolders f k :: l₂ →
      Event.remoteCreateSymboliclink (o.releasesFolder ++ "/" ++ e.release.tag)
        (posixJoin o.deployPath o.currentReleaseLink) ∈ l₁) := by
  constructor
  · intro n
    constructor
    · intro hok
      unfold deployUpTo at hok ⊢
      rw [List.take_succ, seriesRun_append e _ _ o, if_pos hok]
      cases hg : deployTasks[n]? with
      | none => simp [hg, seriesRun, List.getD_eq_getElem?_getD, idTask]
      | some t => simp [hg, seriesRun_single_events, List.getD_eq_getElem?_getD]
    · intro hbad
      unfold deployUpTo at hbad ⊢
      rw [List.take_succ, seriesRun_append e _ _ o, if_neg (by simp [hbad])]
  · intro l₁ l₂ f k heq
    have hArof : ∀ f' k', Event.remoteRemoveOldFolders f' k' ∉ (seriesRun deployTasksA o e).events :=
      fun f' k' => not_rof_mem _
        (seriesRun_all eventSafe e deployTasksA (fun t ht o' => deployTasksA_safe t ht o' e) o)
        f' k'
    have hsplit : (deployRelease o e) = seriesRun (deployTasksA ++ deployTasksB) o e := rfl
    cases hA : (seriesRun deployTasksA o e).ok
    · rw [hsplit, seriesRun_append e _ _ o, if_neg (by simp [hA])] at heq
      exact absurd (heq ▸ (List.mem_append.mpr (Or.inr (List.mem_cons_self _ _))))
        (hArof f k)
    · rw [hsplit, seriesRun_append e _ _ o, if_pos hA] at heq
      exact mem_left_of_eq_append_cons (Event.remoteRemoveOldFolders f k)
        (Event.remoteCreateSymboliclink (o.releasesFolder ++ "/" ++ e.release.tag)
          (posixJoin o.deployPath o.currentReleaseLink))
        (seriesRun deployTasksA o e).events l₁
        (seriesRun deployTasksB (seriesRun deployTasksA o e).opts e).events l₂
        heq (hArof f k) (seriesRunA_swap_mem o e hA)

/-- C1 witness: a concrete completed run — the sequencing equation at the
retention stage, and the swap event sitting inside the concrete prefix that
precedes the prune event. -/
theorem claim_C1_witness :
    ((deployUpTo sampleOptions sampleEnv 17).ok = true ∧
      (deployUpTo sampleOptions sampleEnv 18).events =
        (deployUpTo sampleOptions sampleEnv 17).events ++
          ((deployTasks.getD 17 idTask) (deployUpTo sampleOptions sampleEnv 17).opts
            sampleEnv).events) ∧
    Event.remoteCreateSymboliclink "r/t" "d/c" ∈
      [Event.logSubhead "Connect to h", Event.spinnerStart "Connecting", Event.remoteConnect,
       Event.spinnerStop, Event.logOk "Connected",
       Event.logSubhead "Create release folder on remote", Event.logLog " - p",
       Event.remoteCreateFolder "p", Event.logOk "Done",
       Event.logSubhead "Synchronize remote server", Event.spinnerStart "Synchronizing",
       Event.remoteSynchronize "l" "p" "d/y", Event.spinnerStop, Event.logOk "Done",
       Event.logSubhead "Update current release symlink on remote",
       Event.remoteCreateSymboliclink "r/t" "d/c", Event.logOk "Done",
       Event.logSubhead "Remove old builds on remote", Event.spinnerStart "Removing"] := by
  have h := claim_C1_stage_order sampleOptions sampleEnv
  refine ⟨⟨by decide, (h.1 17).1 (by decide)⟩, ?_⟩
  have h2 := h.2
    [Event.logSubhead "Connect to h", Event.spinnerStart "Connecting", Event.remoteConnect,
     Event.spinnerStop, Event.logOk "Connected",
     Event.logSubhead "Create release folder on remote", Event.logLog " - p",
     Event.remoteCreateFolder "p", Event.logOk "Done",
     Event.logSubhead "Synchronize remote server", Event.spinnerStart "Synchronizing",
     Event.remoteSynchronize "l" "p" "d/y", Event.spinnerStop, Event.logOk "Done",
     Event.logSubhead "Update current release symlink on remote",
     Event.remoteCreateSymboliclink "r/t" "d/c", Event.logOk "Done",
     Event.logSubhead "Remove old builds on remote", Event.spinnerStart "Removing"]
    [Event.spinnerStop, Event.logOk "Done", Event.remoteClose,
     Event.logSubhead "Closed from h"]
    "d/r" 3 (by decide)
  exact h2

/-- C9 witness: both shapes at concrete names. -/
theorem claim_C9_witness :
    slashCount "app/logs" = 0 + 1 ∧
    sharedSymlinkTarget "shared" "app/logs" "x" =
      dotsPath (0 + 2) ++ "/" ++ "shared" ++ "/" ++ "x" ∧
    slashCount "logs" = 0 ∧
    sharedSymlinkTarget "sh2" "logs" "k" = "/../" ++ "sh2" ++ "/" ++ "k" :=
  ⟨by decide,
   (claim_C9_shared_link_target "shared" "app/logs" "x").2.1 0 (by decide),
   by decide,
   (claim_C9_shared_link_target "sh2" "logs" "k").1 (by decide)⟩

end SDR
